import Mathlib

/-!
A shallow embedding of the RxBot routing core (`src/core/Router.ts`).

The core routes an input ("routable") through composable routers, producing a
`Route`: either an actionable route (a deferred action plus a score) or a
no-route carrying a reason.

Modelling choices:
* Scores (JS numbers) are modelled as `ℚ` (the code only multiplies and
  compares them; the concrete scores in the spec are decimal fractions).
  JS `NaN` is not modelled; `score || 1` truthiness on numbers therefore
  reduces to "0 is replaced by 1".
* A router's `getRoute$(routable)` observable either errors or emits exactly
  one `Route` (per the data-model contract); it is modelled as
  `ρ → Except String (Route α)`, where `.error` is an errored observable.
  `getRouteBest$` is the one combinator whose outer observable can complete
  without emitting, so its result is `Except String (Option (Route α))`,
  `none` standing for "completed with no emission".
* The deferred action `() => Observableable<any>` is opaque to the core; it is
  modelled as a value of an abstract type `α`, and a `Handler` becomes
  `ρ → α` (the action the router builds is "apply the handler to the
  routable").
* Matcher/predicate responses are dynamically typed in TS (`any`); they are
  modelled by the inductive `JsVal` below, which covers every shape the
  normalization code inspects: `null`, `undefined`, booleans, numbers,
  strings, and objects with the three fields the code reads
  (`reason`, `value`, `score`).
-/

/-- A dynamically-typed collaborator response, as inspected by
`normalizeMatchResult` / `predicateToMatcher`.  An object is modelled by the
three fields the code reads (`reason`, `value`, `score`); an absent field
reads as `undefined` in JS and the code never distinguishes an absent field
from one explicitly set to `undefined`, so an absent field is modelled as
`.undef`. -/
inductive JsVal : Type where
  | null : JsVal
  | undef : JsVal
  | bool (b : Bool) : JsVal
  | num (q : ℚ) : JsVal
  | str (s : String) : JsVal
  | obj (reason value score : JsVal) : JsVal
deriving DecidableEq, Repr

namespace JsVal

/-- JS truthiness of the modelled values: `false`, `0`, `""`, `null` and
`undefined` are falsy, everything else (objects included) is truthy. -/
def truthy : JsVal → Bool
  | .null => false
  | .undef => false
  | .bool b => b
  | .num q => !(q == 0)
  | .str s => !(s == "")
  | .obj _ _ _ => true

/-- Model of `typeof v === 'string'`. -/
def isStr : JsVal → Bool
  | .str _ => true
  | _ => false

/-- Model of `typeof v === 'number'`. -/
def isNum : JsVal → Bool
  | .num _ => true
  | _ => false

/-- Model of `v == null` (JS loose equality: true exactly for `null` and
`undefined`). -/
def looseNull : JsVal → Bool
  | .null => true
  | .undef => true
  | _ => false

end JsVal

/-- An actionable route: `{ type: 'action', action, score }`.  The `type` tag
is the constructor of `Route` below. -/
structure ActionRoute (α : Type) where
  action : α
  score : ℚ
deriving DecidableEq, Repr

/-- Model of `Route = ActionRoute | NoRoute`; the `type` discriminant of the TS
interfaces becomes the constructor. -/
inductive Route (α : Type) where
  | action (r : ActionRoute α) : Route α
  | no (reason : String) : Route α
deriving DecidableEq, Repr

deriving instance DecidableEq for Except

/-- Model of `Router.defaultReason = "none"`. -/
def defaultReason : String := "none"

/-- Model of `Router.actionRoute(action, score = 1)`. -/
def actionRoute (a : α) (score : ℚ := 1) : ActionRoute α :=
  { action := a, score := score }

/-- Model of `Router.noRoute(reason = Router.defaultReason)`; the optional argument is
modelled by `Option`. -/
def noRoute (reason : Option String := none) : Route α :=
  .no (reason.getD defaultReason)

/-- Model of `Router.combineScore(score, otherScore) = score * otherScore`. -/
def combineScore (score otherScore : ℚ) : ℚ :=
  score * otherScore

/-- Model of `Router.routeWithCombinedScore(route, newScore)`: recombines the score;
returns the route itself when the score is unchanged, else a copy with the
new score. -/
def routeWithCombinedScore (route : ActionRoute α) (newScore : ℚ) : ActionRoute α :=
  let score := combineScore newScore route.score
  if route.score = score then route
  else { route with score := score }

/-- A `Router<ROUTABLE>` wraps one `getRoute$` operation.  The observable it
returns either errors or emits exactly one `Route`. -/
structure Router (ρ α : Type) where
  getRoute : ρ → Except String (Route α)

/-- The type of `getRoute$` functions. -/
def GetRoute (ρ α : Type) : Type := ρ → Except String (Route α)

/-- Model of `Router.getRouteNo$(reason?)`. -/
def getRouteNo (reason : Option String := none) : GetRoute ρ α :=
  fun _ => .ok (noRoute reason)

/-- Model of `Router.getRouteDo$(handler, score?)`: an action route whose action
applies the handler to the routable; `score` defaults to 1 via
`actionRoute`'s default parameter. -/
def getRouteDo (handler : ρ → α) (score : Option ℚ := none) : GetRoute ρ α :=
  fun x => .ok (.action (actionRoute (handler x) (score.getD 1)))

/-- Model of `Router.minRoute`: the sentinel best-so-far route of score 0.  Its action
is a console warning ("should never be called") with no routing content; it
is modelled by the inhabitant of `α`. -/
def minRoute [Inhabited α] : ActionRoute α :=
  actionRoute default 0

/-- Normalized `MatchResult<VALUE> = Match<VALUE> | NoMatch<VALUE>`:
`normalizeMatchResult` always fills in the score of a `Match`, and
`isMatch` discriminates on the absence of `reason`, so the normalized result
is a plain sum. -/
inductive MatchResult : Type where
  | matched (value : JsVal) (score : ℚ) : MatchResult
  | noMatch (reason : String) : MatchResult
deriving DecidableEq, Repr

/-- The `response.score || 1` step of normalization: an absent score and a
zero (falsy) score both become 1.  At the point of use, `score` is `undefined`
or a number. -/
def scoreOr1 : JsVal → ℚ
  | .num q => if q = 0 then 1 else q
  | _ => 1

/-- Model of `Router.normalizeMatchResult(response)`, line for line:
* `response == null || response === false` → no-match with the default reason;
* an object whose `reason` field is truthy → no-match with that reason, but
  an error if the reason is not a string;
* otherwise an object whose `value` field is not `undefined` → match with
  that value and `score || 1`, but an error if a present `score` is not a
  number;
* everything else (bare values, and objects failing both field tests) →
  match with the whole response as value, score 1.
A thrown `Error` is the `.error` branch. -/
def normalizeMatchResult (response : JsVal) : Except String MatchResult :=
  if response.looseNull || response == .bool false then
    .ok (.noMatch defaultReason)
  else
    match response with
    | .obj r v s =>
      if r.truthy then
        match r with
        | .str reason => .ok (.noMatch reason)
        | _ => .error "The reason for NoMatch must be a string"
      else if v != .undef then
        if s != .undef && !s.isNum then
          .error "The score for Match must be a number"
        else
          .ok (.matched v (scoreOr1 s))
      else
        .ok (.matched response 1)
    | _ => .ok (.matched response 1)

/-- A matcher: the routable to an (observable of one) arbitrary response;
`.error` is an errored observable.  `Predicate` is the same type. -/
def Matcher (ρ : Type) : Type := ρ → Except String JsVal

/-- Model of `Router.predicateToMatcher(predicate)`: passes `true`/`false` through,
passes objects with a truthy `reason` through, maps a Match of `false` to
`false` and passes a Match of `true` through (score included), and errors on
everything else. -/
def predicateToMatcher (predicate : Matcher ρ) : Matcher ρ :=
  fun x => do
    let response ← predicate x
    if response == .bool true || response == .bool false then
      .ok response
    else
      match response with
      -- `typeof null === 'object'` in JS, so a null response enters the
      -- object branch and reading `response.reason` throws a TypeError.
      | .null => .error "TypeError: Cannot read properties of null"
      | .obj r v _ =>
        if r.truthy then
          .ok response
        else if v != .undef then
          if v == .bool false then
            .ok (.bool false)
          else if v == .bool true then
            .ok response
          else
            .error "When returning a Match from a predicate, the value must be true or false"
        else
          .error "A predicate may only return true, false, a Match of true or false, or a NoMatch"
      | _ =>
        .error "A predicate may only return true, false, a Match of true or false, or a NoMatch"

/-- Model of `Router.getRouteIfMatches$(matcher, getThenRouter, getElseRouter?)`:
normalize the matcher's response; on a match run the then-router and
recombine an actionable result's score with the match's score; on a no-match
run the else-router (defaulting to `getRouteNo$(reason)`). -/
def getRouteIfMatches (matcher : Matcher ρ)
    (getThenRouter : ρ → JsVal → Router ρ α)
    (getElseRouter : Option (ρ → String → Router ρ α) := none) : GetRoute ρ α :=
  fun x => do
    let getElse := getElseRouter.getD (fun _ reason => ⟨getRouteNo (some reason)⟩)
    let response ← matcher x
    let matchResult ← normalizeMatchResult response
    match matchResult with
    | .matched value score => do
      let route ← (getThenRouter x value).getRoute x
      match route with
      | .action a => .ok (.action (routeWithCombinedScore a score))
      | .no reason => .ok (.no reason)
    | .noMatch reason => (getElse x reason).getRoute x

/-- Model of `Router.getRouteIfTrue$(predicate, getThenRouter, getElseRouter?)`. -/
def getRouteIfTrue (predicate : Matcher ρ)
    (getThenRouter : ρ → JsVal → Router ρ α)
    (getElseRouter : Option (ρ → String → Router ρ α) := none) : GetRoute ρ α :=
  fun x => getRouteIfMatches (predicateToMatcher predicate) getThenRouter getElseRouter x

/-- The sequential traversal inside `getRouteFirst$`:
`concatMap(getRoute$) . filter(action) . take(1) . defaultIfEmpty(noRoute('tryInOrder'))`
over the (already `!!router`-filtered) router list.  A sub-router error
errors the whole stream, so no later router runs. -/
def firstGo (x : ρ) : List (Router ρ α) → Except String (Route α)
  | [] => .ok (noRoute (some "tryInOrder"))
  | r :: rest =>
    match r.getRoute x with
    | .error e => .error e
    | .ok (.action a) => .ok (.action a)
    | .ok (.no _) => firstGo x rest

/-- Model of `Router.getRouteFirst$(...routers)`; the `filter(router => !!router)`
drops the `undefined` entries TypeScript lets the caller pass, hence the
`Option` in the argument list. -/
def getRouteFirst (routers : List (Option (Router ρ α))) : GetRoute ρ α :=
  fun x => firstGo x (routers.filterMap id)

/-- The subscription loop inside `getRouteBest$` over the (already
`!!router`-filtered) router list, carrying the mutable `bestRoute`:
* `takeWhile(_ => bestRoute.score < 1)` is checked before each router is
  queried;
* `concatMap(getRoute$)` queries the router (an error reaches the
  subscriber's error handler, which forwards it);
* `filter(route => route.type === 'action')` drops no-routes;
* the subscriber replaces `bestRoute` only on a strictly greater score, and
  emits and completes as soon as `bestRoute.score === 1`;
* on stream completion, `bestRoute` is emitted only if its score is
  positive; otherwise the outer observable completes with no emission
  (`none`).

`defaultIfEmpty(noRoute('tryInScoreOrder'))` feeds the subscriber a `NoRoute`
when no route passed the filter; that value's `score` reads as `undefined`,
`undefined > 0` is `false` in JS, so it never replaces `bestRoute` and has no
observable effect — the empty-stream case therefore still ends with
`bestRoute = minRoute` of score 0 and no emission. -/
def bestGo (x : ρ) : List (Router ρ α) → ActionRoute α → Except String (Option (Route α))
  | [], best => .ok (if best.score > 0 then some (.action best) else none)
  | r :: rest, best =>
    if best.score < 1 then
      match r.getRoute x with
      | .error e => .error e
      | .ok (.no _) => bestGo x rest best
      | .ok (.action a) =>
        if a.score > best.score then
          if a.score = 1 then .ok (some (.action a))
          else bestGo x rest a
        else bestGo x rest best
    else
      .ok (if best.score > 0 then some (.action best) else none)

/-- Model of `Router.getRouteBest$(...routers)`: the outer observable's emission
(`none` when it completes without emitting a route). -/
def getRouteBest [Inhabited α] (routers : List (Option (Router ρ α))) :
    ρ → Except String (Option (Route α)) :=
  fun x => bestGo x (routers.filterMap id) minRoute

/-- Model of `matchize(matcher, message)` from the earlier-generation module
(`src/unnamed/part_004`): `toFilteredObservable` drops a falsy response
(yielding an empty observable, modelled `none`), and a surviving boolean
(necessarily `true`) is replaced by the original message. -/
def matchize (matcher : JsVal → JsVal) (message : JsVal) : Option JsVal :=
  let m := matcher message
  if m.truthy then
    some (match m with
          | .bool _ => message
          | _ => m)
  else
    none

/-! Concrete routers used by witnesses and counterexamples.  The routable
type is `ℕ` and actions are modelled by `String` labels. -/

/-- A router that always produces a no-route. -/
def noRouter : Router ℕ String := ⟨fun _ => .ok (Route.no "none")⟩

/-- A router that always produces an actionable route with the given label
and score. -/
def act (label : String) (q : ℚ) : Router ℕ String :=
  ⟨fun _ => .ok (Route.action ⟨label, q⟩)⟩

/-- A router that always produces an actionable route of score 0. -/
def zeroScoreRouter : Router ℕ String := ⟨fun _ => .ok (Route.action ⟨"zero", 0⟩)⟩

/-! Helper lemmas about the traversals. -/

/-- Wrapping a router list in `some` and then dropping the `undefined`
entries is the identity. -/
theorem filterMap_id_map_some (l : List β) : (l.map some).filterMap id = l := by
  induction l with
  | nil => rfl
  | cons b bs ih => simp [List.filterMap_cons, ih]

/-- Routers that produce no-routes are skipped by the `first` traversal. -/
theorem firstGo_append_no (x : ρ) (pre rest : List (Router ρ α))
    (hpre : ∀ rr ∈ pre, ∃ reason, rr.getRoute x = .ok (.no reason)) :
    firstGo x (pre ++ rest) = firstGo x rest := by
  induction pre with
  | nil => rfl
  | cons p ps ih =>
    obtain ⟨reason, hr⟩ := hpre p (List.mem_cons_self p ps)
    have := ih (fun rr h => hpre rr (List.mem_cons_of_mem p h))
    simpa [firstGo, hr] using this

/-- If every remaining candidate is a no-route or an actionable route whose
score does not exceed the current best, the `best` traversal keeps the
current best and finishes by emitting it exactly when its score is
positive. -/
theorem bestGo_all_le (x : ρ) (rs : List (Router ρ α)) (best : ActionRoute α)
    (hlt : best.score < 1)
    (hrs : ∀ rr ∈ rs, (∃ reason, rr.getRoute x = .ok (.no reason))
        ∨ (∃ b, rr.getRoute x = .ok (.action b) ∧ b.score ≤ best.score)) :
    bestGo x rs best = .ok (if best.score > 0 then some (.action best) else none) := by
  induction rs with
  | nil => rfl
  | cons p ps ih =>
    have hrest := ih (fun rr h => hrs rr (List.mem_cons_of_mem p h))
    rcases hrs p (List.mem_cons_self p ps) with ⟨reason, hr⟩ | ⟨b, hr, hb⟩
    · simp [bestGo, hr, hlt, hrest]
    · have : ¬ b.score > best.score := not_lt.mpr hb
      simp [bestGo, hr, hlt, this, hrest]

/-- Running the `best` traversal through a block of candidates whose scores
all stay strictly below a bound `c ≤ 1` leaves some best-so-far whose score
is still strictly below `c`. -/
theorem bestGo_append_lt (x : ρ) (pre rest : List (Router ρ α)) (best : ActionRoute α)
    (c : ℚ) (hc : c ≤ 1) (hbest : best.score < c)
    (hpre : ∀ rr ∈ pre, (∃ reason, rr.getRoute x = .ok (.no reason))
        ∨ (∃ b, rr.getRoute x = .ok (.action b) ∧ b.score < c)) :
    ∃ best2 : ActionRoute α,
      bestGo x (pre ++ rest) best = bestGo x rest best2 ∧ best2.score < c := by
  induction pre generalizing best with
  | nil => exact ⟨best, rfl, hbest⟩
  | cons p ps ih =>
    have hlt1 : best.score < 1 := lt_of_lt_of_le hbest hc
    rcases hpre p (List.mem_cons_self p ps) with ⟨reason, hr⟩ | ⟨b, hr, hb⟩
    · have := ih best hbest (fun rr h => hpre rr (List.mem_cons_of_mem p h))
      simpa [bestGo, hr, hlt1] using this
    · by_cases hgt : b.score > best.score
      · have hb1 : b.score ≠ 1 := ne_of_lt (lt_of_lt_of_le hb hc)
        have := ih b hb (fun rr h => hpre rr (List.mem_cons_of_mem p h))
        simpa [bestGo, hr, hlt1, hgt, hb1] using this
      · have := ih best hbest (fun rr h => hpre rr (List.mem_cons_of_mem p h))
        simpa [bestGo, hr, hlt1, hgt] using this

/-- The normalized score `score || 1` is never zero. -/
theorem scoreOr1_ne_zero (u : JsVal) : scoreOr1 u ≠ 0 := by
  cases u <;> simp [scoreOr1]
  split <;> simp_all

/-- **C8.** Applying a new score `s` to an actionable route `r` returns `r`
itself when the recombined score equals `r.score` (in particular when
`s = 1`), and in every case returns a route whose action is `r`'s and whose
score is the recombined `combineScore s r.score`; the model is pure, so `r`
is never mutated. -/
theorem routeWithCombinedScore_spec (α : Type) (r : ActionRoute α) (s : ℚ) :
    (combineScore s r.score = r.score → routeWithCombinedScore r s = r)
    ∧ routeWithCombinedScore r 1 = r
    ∧ (routeWithCombinedScore r s).action = r.action
    ∧ (routeWithCombinedScore r s).score = combineScore s r.score := by
  have hsplit : routeWithCombinedScore r s =
      if r.score = combineScore s r.score then r
      else { r with score := combineScore s r.score } := rfl
  refine ⟨fun h => ?_, ?_, ?_, ?_⟩
  · rw [hsplit, if_pos h.symm]
  · simp [routeWithCombinedScore, combineScore]
  · rw [hsplit]
    by_cases h : r.score = combineScore s r.score
    · rw [if_pos h]
    · rw [if_neg h]
  · rw [hsplit]
    by_cases h : r.score = combineScore s r.score
    · rw [if_pos h]
      exact h
    · rw [if_neg h]

/-- Witness for C8 at `r = ⟨"a", 1/2⟩`, `s = 1`. -/
theorem routeWithCombinedScore_spec_witness :
    routeWithCombinedScore (⟨"a", (1/2 : ℚ)⟩ : ActionRoute String) 1 = ⟨"a", (1/2 : ℚ)⟩ :=
  (routeWithCombinedScore_spec String ⟨"a", (1/2 : ℚ)⟩ 1).1 (by norm_num [combineScore])

/-- The outer matcher of the C6 chain: a match of value `"v1"` with score
0.5. -/
def matcherHalf : Matcher ℕ := fun _ => .ok (JsVal.obj .undef (.str "v1") (.num 0.5))

/-- The inner matcher of the C6 chain: a match of value `"v2"` with score
0.8. -/
def matcherFourFifths : Matcher ℕ := fun _ => .ok (JsVal.obj .undef (.str "v2") (.num 0.8))

/-- The C6 conditional chain: `matcherHalf` feeding `matcherFourFifths`
feeding a terminal handler of default score 1. -/
def chainHalfFourFifths : GetRoute ℕ String :=
  getRouteIfMatches matcherHalf
    (fun _ _ => ⟨getRouteIfMatches matcherFourFifths
      (fun _ _ => ⟨getRouteDo (fun _ => "handled")⟩)⟩)

/-- **C6.** Score combination is multiplication, and the conditional chain of
matchers scoring 0.5 and 0.8 over a terminal handler resolves to an
actionable route of score 0.4 exactly (scores are rationals in the model, so
no floating-point tolerance is needed). -/
theorem combineScore_is_mul_and_chain :
    (∀ s t : ℚ, combineScore s t = s * t)
    ∧ chainHalfFourFifths 0 = .ok (.action ⟨"handled", (0.4 : ℚ)⟩) := by
  refine ⟨fun _ _ => rfl, ?_⟩
  norm_num +decide [chainHalfFourFifths, getRouteIfMatches, matcherHalf, matcherFourFifths,
    normalizeMatchResult, JsVal.looseNull, JsVal.truthy, JsVal.isNum, scoreOr1,
    getRouteDo, actionRoute, routeWithCombinedScore, combineScore,
    Bind.bind, Except.bind, Pure.pure, Except.pure, getRouteNo, noRoute]

/-- **C2 (code bug).** `best` of an empty list, of a single no-route router,
and of a single zero-score actionable router all complete without emitting
any `Route` at all: the `defaultIfEmpty` no-route is swallowed by the
subscriber (`undefined > 0` is false) and a best-so-far of score 0 is never
emitted, so — contrary to the claim and the spec — no `NoRoute` is
produced. -/
theorem best_completes_without_emitting :
    getRouteBest ([] : List (Option (Router ℕ String))) 0 = .ok none
    ∧ getRouteBest [some noRouter] 0 = .ok none
    ∧ getRouteBest [some zeroScoreRouter] 0 = .ok none := by
  refine ⟨?_, ?_, ?_⟩ <;>
    norm_num +decide [getRouteBest, bestGo, minRoute, actionRoute, noRouter, zeroScoreRouter,
      List.filterMap_cons]

/-- **C1.** The `first` combinator tries routers in list order: when every
router before `r` produces a no-route and `r` produces an actionable route,
that route is the overall result, and the routers after `r` are never
consulted (the result is the same for every tail); when every router
produces a no-route — the empty list included — the result is a single
no-route with reason "tryInOrder". -/
theorem first_tries_in_order (ρ α : Type) :
    (∀ (pre post post2 : List (Router ρ α)) (r : Router ρ α) (x : ρ) (a : ActionRoute α),
      (∀ rr ∈ pre, ∃ reason, rr.getRoute x = .ok (.no reason)) →
      r.getRoute x = .ok (.action a) →
      getRouteFirst ((pre ++ r :: post).map some) x = .ok (.action a)
        ∧ getRouteFirst ((pre ++ r :: post).map some) x
            = getRouteFirst ((pre ++ r :: post2).map some) x)
    ∧ (∀ (routers : List (Router ρ α)) (x : ρ),
        (∀ rr ∈ routers, ∃ reason, rr.getRoute x = .ok (.no reason)) →
        getRouteFirst (routers.map some) x = .ok (.no "tryInOrder")) := by
  have key : ∀ (pre post : List (Router ρ α)) (r : Router ρ α) (x : ρ) (a : ActionRoute α),
      (∀ rr ∈ pre, ∃ reason, rr.getRoute x = .ok (.no reason)) →
      r.getRoute x = .ok (.action a) →
      getRouteFirst ((pre ++ r :: post).map some) x = .ok (.action a) := by
    intro pre post r x a hpre hr
    show firstGo x (((pre ++ r :: post).map some).filterMap id) = _
    rw [filterMap_id_map_some, firstGo_append_no x pre _ hpre]
    simp [firstGo, hr]
  refine ⟨fun pre post post2 r x a hpre hr =>
    ⟨key pre post r x a hpre hr, ?_⟩, ?_⟩
  · rw [key pre post r x a hpre hr, key pre post2 r x a hpre hr]
  · intro routers x h
    show firstGo x ((routers.map some).filterMap id) = _
    rw [filterMap_id_map_some, ← List.append_nil routers,
      firstGo_append_no x routers [] h]
    rfl

/-- Witness for C1: a no-route router followed by two actionable routers;
the first actionable route wins. -/
theorem first_tries_in_order_witness :
    getRouteFirst [some noRouter, some (act "a" 1), some (act "b" (1/2))] 0
      = .ok (.action ⟨"a", 1⟩) :=
  ((first_tries_in_order ℕ String).1 [noRouter] [act "b" (1/2)] []
    (act "a" 1) 0 ⟨"a", 1⟩
    (fun rr hm => ⟨"none", by rw [List.mem_singleton] at hm; rw [hm]; rfl⟩)
    rfl).1

/-- **C3.** The `best` combinator exits early at score 1: when every router
before `r` produces a no-route or an actionable route of score below 1 and
`r` produces an actionable route of score exactly 1, that route is emitted as
the final result, and the routers after `r` are never consulted (the result
is the same for every tail). -/
theorem best_early_exit (ρ α : Type) [Inhabited α] :
    ∀ (pre post post2 : List (Router ρ α)) (r : Router ρ α) (x : ρ) (a : ActionRoute α),
      (∀ rr ∈ pre, (∃ reason, rr.getRoute x = .ok (.no reason))
          ∨ (∃ b, rr.getRoute x = .ok (.action b) ∧ b.score < 1)) →
      r.getRoute x = .ok (.action a) → a.score = 1 →
      getRouteBest ((pre ++ r :: post).map some) x = .ok (some (.action a))
      ∧ getRouteBest ((pre ++ r :: post).map some) x
          = getRouteBest ((pre ++ r :: post2).map some) x := by
  have key : ∀ (pre post : List (Router ρ α)) (r : Router ρ α) (x : ρ) (a : ActionRoute α),
      (∀ rr ∈ pre, (∃ reason, rr.getRoute x = .ok (.no reason))
          ∨ (∃ b, rr.getRoute x = .ok (.action b) ∧ b.score < 1)) →
      r.getRoute x = .ok (.action a) → a.score = 1 →
      getRouteBest ((pre ++ r :: post).map some) x = .ok (some (.action a)) := by
    intro pre post r x a hpre hr ha
    show bestGo x (((pre ++ r :: post).map some).filterMap id) minRoute = _
    rw [filterMap_id_map_some]
    obtain ⟨best2, heq, hlt⟩ := bestGo_append_lt x pre (r :: post) minRoute 1 le_rfl
      (by norm_num [minRoute, actionRoute]) hpre
    have hgt : a.score > best2.score := ha ▸ hlt
    rw [heq]
    simp [bestGo, hlt, hr, hgt, ha]
  intro pre post post2 r x a hpre hr ha
  exact ⟨key pre post r x a hpre hr ha,
    by rw [key pre post r x a hpre hr ha, key pre post2 r x a hpre hr ha]⟩

/-- Witness for C3: scores [0.5, 1, 0.9]; the score-1 router is emitted and
the trailing router is behind the early exit. -/
theorem best_early_exit_witness :
    getRouteBest [some (act "low" (1/2)), some (act "one" 1), some (act "spy" (9/10))] 0
      = .ok (some (.action ⟨"one", 1⟩)) :=
  (best_early_exit ℕ String [act "low" (1/2)] [act "spy" (9/10)] []
    (act "one" 1) 0 ⟨"one", 1⟩
    (fun rr hm => Or.inr ⟨⟨"low", 1/2⟩,
      by rw [List.mem_singleton] at hm; rw [hm]; rfl, by norm_num⟩)
    rfl rfl).1

/-- **C4.** For `best` over actionable candidates with scores below 1, a
candidate replaces the best-so-far only on a strictly greater score, so the
first candidate attaining the maximal score wins: when the routers before
`r` score strictly below `r`'s (positive) score and the routers after `r`
score at most `r`'s score, `r`'s route is the result. -/
theorem best_first_max_wins (ρ α : Type) [Inhabited α] :
    ∀ (pre post : List (Router ρ α)) (r : Router ρ α) (x : ρ) (a : ActionRoute α),
      r.getRoute x = .ok (.action a) → 0 < a.score → a.score < 1 →
      (∀ rr ∈ pre, ∃ b, rr.getRoute x = .ok (.action b) ∧ b.score < a.score) →
      (∀ rr ∈ post, ∃ b, rr.getRoute x = .ok (.action b) ∧ b.score ≤ a.score) →
      getRouteBest ((pre ++ r :: post).map some) x = .ok (some (.action a)) := by
  intro pre post r x a hr h0 h1 hpre hpost
  show bestGo x (((pre ++ r :: post).map some).filterMap id) minRoute = _
  rw [filterMap_id_map_some]
  obtain ⟨best2, heq, hlt⟩ := bestGo_append_lt x pre (r :: post) minRoute a.score
    (le_of_lt h1) (by norm_num [minRoute, actionRoute, h0])
    (fun rr h => Or.inr ((hpre rr h).imp (fun b hb => hb)))
  have hlt1 : best2.score < 1 := lt_trans hlt h1
  have hne : a.score ≠ 1 := ne_of_lt h1
  have hstep : bestGo x (r :: post) best2 = bestGo x post a := by
    simp [bestGo, hlt1, hr, hlt, hne]
  rw [heq, hstep,
    bestGo_all_le x post a h1 (fun rr h => Or.inr (hpost rr h)), if_pos h0]

/-- Witness for C4: candidate scores [0.85, 0.5, 0.85]; the first 0.85 route
is the result, not the third. -/
theorem best_first_max_wins_witness :
    getRouteBest [some (act "x" (0.85 : ℚ)), some (act "y" (0.5 : ℚ)),
        some (act "z" (0.85 : ℚ))] 0
      = .ok (some (.action ⟨"x", (0.85 : ℚ)⟩)) :=
  best_first_max_wins ℕ String [] [act "y" (0.5 : ℚ), act "z" (0.85 : ℚ)]
    (act "x" (0.85 : ℚ)) 0 ⟨"x", (0.85 : ℚ)⟩
    rfl (by norm_num) (by norm_num)
    (fun rr hm => absurd hm (List.not_mem_nil rr))
    (by
      intro rr hm
      rcases List.mem_cons.mp hm with h | h
      · exact ⟨⟨"y", (0.5 : ℚ)⟩, by rw [h]; rfl, by norm_num⟩
      · rw [List.mem_singleton] at h
        exact ⟨⟨"z", (0.85 : ℚ)⟩, by rw [h]; rfl, by norm_num⟩)

/-- **C5 counterexample.** Normalizing the boolean `true` yields a `Match`
whose value is the boolean `true` itself, not the routable input: at input
`"play"` the claimed result does not hold (only the legacy `matchize` helper
substitutes the original input). -/
theorem normalize_true_keeps_boolean :
    normalizeMatchResult (JsVal.bool true) = .ok (.matched (JsVal.bool true) 1)
    ∧ normalizeMatchResult (JsVal.bool true) ≠ .ok (.matched (JsVal.str "play") 1) := by
  refine ⟨rfl, ?_⟩
  intro h
  rw [show normalizeMatchResult (JsVal.bool true)
      = .ok (.matched (JsVal.bool true) 1) from rfl] at h
  simp at h

/-- **C5 (amended).** In the core's `normalizeMatchResult`, the boolean
`true` normalizes to a success whose value is `true` itself, with score 1
(the substitution of the original input for a boolean response is the legacy
`matchize` helper's behaviour); `null`, `undefined` and `false` normalize to
a failure with the default reason; `{value: "v", score: 0.3}` normalizes to
a success with value `"v"` and score 0.3. -/
theorem normalization_roundtrip_amended :
    normalizeMatchResult (JsVal.bool true) = .ok (.matched (JsVal.bool true) 1)
    ∧ (∀ msg : JsVal, matchize (fun _ => JsVal.bool true) msg = some msg)
    ∧ normalizeMatchResult JsVal.null = .ok (.noMatch defaultReason)
    ∧ normalizeMatchResult JsVal.undef = .ok (.noMatch defaultReason)
    ∧ normalizeMatchResult (JsVal.bool false) = .ok (.noMatch defaultReason)
    ∧ normalizeMatchResult (JsVal.obj .undef (.str "v") (.num (0.3 : ℚ)))
        = .ok (.matched (.str "v") (0.3 : ℚ)) := by
  refine ⟨rfl, fun msg => rfl, rfl, rfl, rfl, ?_⟩
  norm_num +decide [normalizeMatchResult, JsVal.looseNull, JsVal.truthy,
    JsVal.isNum, scoreOr1]

/-- **C10.** An object response with a defined value and an explicit score
of 0 normalizes to a successful `Match` of score 1 (the falsy score is
replaced by the default through `score || 1`), and `normalizeMatchResult`
can never produce a successful `Match` of score 0. -/
theorem normalized_match_score_never_zero :
    (∀ v : JsVal, v ≠ .undef →
      normalizeMatchResult (JsVal.obj .undef v (.num 0)) = .ok (.matched v 1))
    ∧ (∀ (resp v : JsVal) (s : ℚ),
        normalizeMatchResult resp = .ok (.matched v s) → s ≠ 0) := by
  constructor
  · intro v hv
    have hb : (v != JsVal.undef) = true := bne_iff_ne.mpr hv
    simp [normalizeMatchResult, JsVal.looseNull, JsVal.truthy, JsVal.isNum, hb, scoreOr1]
  · intro resp v s h
    unfold normalizeMatchResult at h
    split at h
    · simp at h
    · split at h
      · rename_i r vv ss hno
        split at h
        · split at h <;> simp at h
        · split at h
          · split at h
            · simp at h
            · simp only [Except.ok.injEq, MatchResult.matched.injEq] at h
              exact fun hs0 => scoreOr1_ne_zero ss (h.2.trans hs0)
          · simp only [Except.ok.injEq, MatchResult.matched.injEq] at h
            exact fun hs0 => absurd (h.2.trans hs0) one_ne_zero
      · simp only [Except.ok.injEq, MatchResult.matched.injEq] at h
        exact fun hs0 => absurd (h.2.trans hs0) one_ne_zero

/-- Witness for C10 at `{value: "v", score: 0}`. -/
theorem normalized_match_score_never_zero_witness :
    normalizeMatchResult (JsVal.obj .undef (.str "v") (.num 0))
      = .ok (.matched (.str "v") 1)
    ∧ (1 : ℚ) ≠ 0 :=
  ⟨normalized_match_score_never_zero.1 (.str "v") (by decide),
   normalized_match_score_never_zero.2 (JsVal.obj .undef (.str "v") (.num 0))
     (.str "v") 1
     (normalized_match_score_never_zero.1 (.str "v") (by decide))⟩

/-- A predicate responding with a Match of `true` carrying an explicit score
of 0.5. -/
def predHalfScore : Matcher ℕ := fun _ => .ok (JsVal.obj .undef (.bool true) (.num 0.5))

/-- A then-router resolving to an actionable route labelled "acted" with the
default score 1. -/
def thenActed : ℕ → JsVal → Router ℕ String := fun _ _ => ⟨getRouteDo (fun _ => "acted")⟩

/-- **C7 counterexample.** A predicate response within the normalization
contract — the Match `{value: true, score: 0.5}` — does change the
then-router's score: the route comes back with score 0.5, not its own
score 1. -/
theorem predicate_score_changes_route :
    getRouteIfTrue predHalfScore thenActed none 0 = .ok (.action ⟨"acted", (0.5 : ℚ)⟩)
    ∧ getRouteIfTrue predHalfScore thenActed none 0 ≠ .ok (.action ⟨"acted", 1⟩) := by
  have h : getRouteIfTrue predHalfScore thenActed none 0
      = .ok (.action ⟨"acted", (0.5 : ℚ)⟩) := by
    norm_num +decide [getRouteIfTrue, getRouteIfMatches, predicateToMatcher, predHalfScore,
      thenActed, normalizeMatchResult, JsVal.looseNull, JsVal.truthy, JsVal.isNum, scoreOr1,
      getRouteDo, actionRoute, routeWithCombinedScore, combineScore,
      Bind.bind, Except.bind, Pure.pure, Except.pure]
  refine ⟨h, ?_⟩
  rw [h]
  intro hc
  simp only [Except.ok.injEq, Route.action.injEq, ActionRoute.mk.injEq] at hc
  exact absurd hc.2 (by norm_num)

/-- **C7 (amended).** In predicate-based conditional dispatch, the
then-router's actionable route keeps its score when the predicate returns
`true`, a Match of `true` without a score, or a Match of `true` with an
explicit score of 0 (all of which normalize to score 1); but a Match of
`true` with an explicit nonzero numeric score `s` multiplies the route's
score by `s` via the usual recombination. -/
theorem predicate_score_passthrough (ρ α : Type) (pred : Matcher ρ)
    (getThen : ρ → JsVal → Router ρ α) (x : ρ) (a : ActionRoute α)
    (hthen : (getThen x (JsVal.bool true)).getRoute x = .ok (.action a)) :
    (pred x = .ok (.bool true) →
      getRouteIfTrue pred getThen none x = .ok (.action a))
    ∧ (pred x = .ok (JsVal.obj .undef (.bool true) .undef) →
      getRouteIfTrue pred getThen none x = .ok (.action a))
    ∧ (pred x = .ok (JsVal.obj .undef (.bool true) (.num 0)) →
      getRouteIfTrue pred getThen none x = .ok (.action a))
    ∧ (∀ s : ℚ, s ≠ 0 → pred x = .ok (JsVal.obj .undef (.bool true) (.num s)) →
      getRouteIfTrue pred getThen none x = .ok (.action (routeWithCombinedScore a s))) := by
  refine ⟨fun hp => ?_, fun hp => ?_, fun hp => ?_, fun s hs hp => ?_⟩
  · simp [getRouteIfTrue, getRouteIfMatches, predicateToMatcher, hp, hthen,
      normalizeMatchResult, JsVal.looseNull, JsVal.truthy, JsVal.isNum, scoreOr1,
      Bind.bind, Except.bind, routeWithCombinedScore, combineScore]
  · simp [getRouteIfTrue, getRouteIfMatches, predicateToMatcher, hp, hthen,
      normalizeMatchResult, JsVal.looseNull, JsVal.truthy, JsVal.isNum, scoreOr1,
      Bind.bind, Except.bind, routeWithCombinedScore, combineScore]
  · simp [getRouteIfTrue, getRouteIfMatches, predicateToMatcher, hp, hthen,
      normalizeMatchResult, JsVal.looseNull, JsVal.truthy, JsVal.isNum, scoreOr1,
      Bind.bind, Except.bind, routeWithCombinedScore, combineScore]
  · simp [getRouteIfTrue, getRouteIfMatches, predicateToMatcher, hp, hthen,
      normalizeMatchResult, JsVal.looseNull, JsVal.truthy, JsVal.isNum, scoreOr1, hs,
      Bind.bind, Except.bind]

/-- Witness for C7 at a predicate returning the bare boolean `true`: the
then-route's score 1 is unchanged. -/
theorem predicate_score_passthrough_witness :
    getRouteIfTrue (fun _ : ℕ => .ok (JsVal.bool true)) thenActed none 0
      = .ok (.action ⟨"acted", 1⟩) :=
  (predicate_score_passthrough ℕ String (fun _ => .ok (JsVal.bool true)) thenActed 0
    ⟨"acted", 1⟩ rfl).1 rfl

/-- **C9 counterexample.** An object whose `reason` field is present but
falsy and non-string — `{reason: 0}` — does not raise: the truthiness test
`if (response.reason)` skips the reason branch and the whole object is
coerced to a successful `Match` of itself with score 1. -/
theorem normalize_falsy_reason_not_error :
    normalizeMatchResult (JsVal.obj (.num 0) .undef .undef)
      = .ok (.matched (JsVal.obj (.num 0) .undef .undef) 1) := by
  norm_num +decide [normalizeMatchResult, JsVal.looseNull, JsVal.truthy]

/-- Truth of "this result models a thrown error". -/
def raisesError : Except String β → Bool
  | .error _ => true
  | .ok _ => false

/-- Stated from the amended claim: `normalizeMatchResult` throws exactly on
an object with a truthy non-string `reason`, or an object without a truthy
`reason` whose `value` is defined and whose `score` is defined but not a
number. -/
def malformedMatchResponse : JsVal → Bool
  | .obj r v s =>
      (r.truthy && !r.isStr)
      || (!r.truthy && (v != .undef) && (s != .undef) && !s.isNum)
  | _ => false

/-- Stated from the amended claim: `predicateToMatcher` throws exactly on a
response that is not `true`, not `false`, not an object with a truthy
`reason`, and not an object whose `value` is `true` or `false` (a `null`
response also throws, via the property read on `null`, since
`typeof null === 'object'`). -/
def malformedPredicateResponse : JsVal → Bool
  | .null => true
  | .bool _ => false
  | .obj r v _ => !r.truthy && !(v == .bool true) && !(v == .bool false)
  | _ => true

/-- **C9 (amended).** Normalization raises an error exactly when the
response is malformed in the code's truthiness-based sense:
`normalizeMatchResult` throws exactly on `malformedMatchResponse` (a
*truthy* non-string reason — a falsy non-string reason such as `0` is
ignored — or a defined value with a defined non-numeric score), and
`predicateToMatcher` throws exactly on `malformedPredicateResponse`
(anything but `true`, `false`, a Match of `true`/`false`, or an object with
a truthy reason; `null` throws a `TypeError`). -/
theorem normalization_error_iff :
    (∀ resp : JsVal, raisesError (normalizeMatchResult resp) = malformedMatchResponse resp)
    ∧ (∀ resp : JsVal,
        raisesError (predicateToMatcher (fun _ : Unit => .ok resp) ())
          = malformedPredicateResponse resp) := by
  constructor
  · intro resp
    cases resp with
    | null => rfl
    | undef => rfl
    | bool b => cases b <;> rfl
    | num q => rfl
    | str s => rfl
    | obj r v s =>
      by_cases hr : r.truthy
      · cases r <;> simp [JsVal.truthy] at hr <;>
          simp [normalizeMatchResult, raisesError, malformedMatchResponse,
            JsVal.looseNull, JsVal.truthy, JsVal.isStr, hr]
      · by_cases hv : v = .undef
        · subst hv
          simp [normalizeMatchResult, raisesError, malformedMatchResponse,
            JsVal.looseNull, hr]
        · by_cases hs : s = .undef
          · subst hs
            simp [normalizeMatchResult, raisesError, malformedMatchResponse,
              JsVal.looseNull, JsVal.isNum, hr, hv]
          · by_cases hn : s.isNum
            · simp [normalizeMatchResult, raisesError, malformedMatchResponse,
                JsVal.looseNull, hr, hv, hs, hn]
            · simp [normalizeMatchResult, raisesError, malformedMatchResponse,
                JsVal.looseNull, hr, hv, hs, hn]
  · intro resp
    cases resp with
    | null => rfl
    | undef => rfl
    | bool b => cases b <;> rfl
    | num q => rfl
    | str s => rfl
    | obj r v s =>
      by_cases hr : r.truthy
      · simp [predicateToMatcher, raisesError, malformedPredicateResponse,
          Bind.bind, Except.bind, hr]
      · by_cases hvt : v = .bool true
        · subst hvt
          simp [predicateToMatcher, raisesError, malformedPredicateResponse,
            Bind.bind, Except.bind, hr]
        · by_cases hvf : v = .bool false
          · subst hvf
            simp [predicateToMatcher, raisesError, malformedPredicateResponse,
              Bind.bind, Except.bind, hr]
          · by_cases hv : v = .undef
            · subst hv
              simp [predicateToMatcher, raisesError, malformedPredicateResponse,
                Bind.bind, Except.bind, hr]
            · simp [predicateToMatcher, raisesError, malformedPredicateResponse,
                Bind.bind, Except.bind, hr, hv, hvt, hvf]
